import Mathlib

/-!
Shallow embedding of `src/main.cxx` from the alembic-example repository
(a converter from OBJ/PLY mesh frames to an Alembic archive).

Modelling conventions:
* A file's contents are a `List Nat` of byte values (the program reads files
  into `std::string` byte buffers).
* `std::sscanf` conversions are modelled at the byte level: `%f` follows the
  C decimal floating-point grammar (hexadecimal floats and inf/nan spellings
  are not modelled; no claim exercises them) with the numeric value taken in
  `ℚ` (IEEE-754 rounding is not modelled; no claim depends on rounded values),
  `%d` yields the mathematical integer (signed-overflow behaviour of `sscanf`
  is undefined in C and not modelled), and `%zu` reduces modulo `2^64` as
  `strtoull` does on a 64-bit platform.
* A `vec3f` records its provenance: three scanned decimal values (text
  parser) or twelve raw payload bytes copied by `memcpy` (binary parser);
  no claim inspects the IEEE-754 bit-level decoding.
* `die` (which terminates the process) is modelled by the `fatal`
  constructor of `PResult`; `readerr` diagnostics are collected in a list of
  (1-based line number, message) pairs.
-/

/-- Byte values of a string literal (the program reads files as byte strings). -/
def bytesOf (s : String) : List Nat := s.data.map Char.toNat

/-- C `isspace` on a byte. -/
def isSpaceByte (b : Nat) : Bool := b = 32 || (9 ≤ b && b ≤ 13)

/-- ASCII decimal digit test. -/
def isDigitByte (b : Nat) : Bool := 48 ≤ b && b ≤ 57

/-- Skip leading whitespace, as a whitespace directive or conversion prefix in `sscanf`. -/
def skipWS (l : List Nat) : List Nat := l.dropWhile isSpaceByte

/-- Greedily take leading decimal digits. -/
def takeDigits (l : List Nat) : List Nat × List Nat :=
  (l.takeWhile isDigitByte, l.dropWhile isDigitByte)

/-- Numeric value of a digit string. -/
def natOfDigits (ds : List Nat) : Nat := ds.foldl (fun a d => a * 10 + (d - 48)) 0

/-- Greedy unsigned decimal number scan: at least one digit required. -/
def scanUNat (l : List Nat) : Option (Nat × List Nat) :=
  let p := takeDigits l
  if p.1.isEmpty then none else some (natOfDigits p.1, p.2)

/-- Model of an `sscanf` `%d` conversion (`SCNd32`): skip whitespace, optional
sign, at least one digit.  The value is the mathematical integer. -/
def scanInt (l : List Nat) : Option (Int × List Nat) :=
  match skipWS l with
  | 45 :: r => (scanUNat r).map (fun p => (-(p.1 : Int), p.2))
  | 43 :: r => (scanUNat r).map (fun p => ((p.1 : Int), p.2))
  | r => (scanUNat r).map (fun p => ((p.1 : Int), p.2))

/-- A successfully scanned `%f` value, kept in syntactic decimal form; the
numeric value it denotes is `±(intPart + fracPart/10^fracLen) * 10^exponent`.
IEEE-754 rounding to `float` is not modelled; no claim inspects the value. -/
structure ScannedFloat where
  negative : Bool
  intPart : Nat
  fracPart : Nat
  fracLen : Nat
  exponent : Int
deriving DecidableEq

/-- Mantissa of a C decimal float: `digits [. digits]` or `. digits`.  Returns
(integer part, fraction part, number of fraction digits). -/
def scanMantissa (l : List Nat) : Option ((Nat × Nat × Nat) × List Nat) :=
  let ip := takeDigits l
  match ip.2 with
  | 46 :: r2 =>
    let fp := takeDigits r2
    if ip.1.isEmpty && fp.1.isEmpty then none
    else some ((natOfDigits ip.1, natOfDigits fp.1, fp.1.length), fp.2)
  | _ => if ip.1.isEmpty then none else some ((natOfDigits ip.1, 0, 0), ip.2)

/-- Optional exponent part of a C decimal float: `(e|E) [sign] digits`. -/
def scanExponent (l : List Nat) : Option (Int × List Nat) :=
  match l with
  | 101 :: r | 69 :: r =>
    (match r with
     | 45 :: r2 => (scanUNat r2).map (fun p => (-(p.1 : Int), p.2))
     | 43 :: r2 => (scanUNat r2).map (fun p => ((p.1 : Int), p.2))
     | r2 => (scanUNat r2).map (fun p => ((p.1 : Int), p.2)))
  | _ => none

/-- Model of an `sscanf` `%f` conversion: skip whitespace, optional sign,
decimal mantissa, optional exponent. -/
def scanFloat (l : List Nat) : Option (ScannedFloat × List Nat) :=
  let l1 := skipWS l
  let sp : Bool × List Nat :=
    match l1 with
    | 45 :: r => (true, r)
    | 43 :: r => (false, r)
    | r => (false, r)
  match scanMantissa sp.2 with
  | none => none
  | some ((ip, fp, fl), r3) =>
    match scanExponent r3 with
    | some (e, r4) => some (⟨sp.1, ip, fp, fl, e⟩, r4)
    | none => some (⟨sp.1, ip, fp, fl, 0⟩, r3)

/-- One vertex position (`vec3f` in the source).  The constructor records how
the three floats were produced: scanned from decimal text (`load_obj`) or
copied bytewise from the binary payload (`load_ply`). -/
inductive vec3f where
  | ofFloats (x y z : ScannedFloat) : vec3f
  | ofBytes (bytes : List Nat) : vec3f
deriving DecidableEq

/-- The common in-memory mesh representation (`struct Mesh`). -/
structure Mesh where
  vertexes : List vec3f
  indexes : List Int
  faces : List Int
deriving DecidableEq

/-- A `readerr` diagnostic: 1-based line number and message. -/
abbrev Diag := Nat × String

/-- Result of a computation that may call `die` (process termination). -/
inductive PResult (α : Type) where
  | ok (val : α)
  | fatal (msg : String)
deriving DecidableEq

/-- The shared text-format index-range check (`idx_ok` in the source):
`idx > 0 && size_t(idx) <= vertex_count`. -/
def idx_ok (idx : Int) (vertex_count : Nat) : Bool :=
  0 < idx && idx.toNat ≤ vertex_count

/-- Byte-level model of the source's `starts_with(s, p)`.  If `s` is shorter
than `p`, the C version compares `p` against the NUL terminator and fails. -/
def starts_with : List Nat → List Nat → Bool
  | _, [] => true
  | [], _ :: _ => false
  | s :: ss, p :: ps => s = p && starts_with ss ps

/-- The lines produced by repeated `std::getline` on a byte buffer: split at
newline bytes; a trailing newline does not produce an extra empty line. -/
def splitLinesAux (cur : List Nat) : List Nat → List (List Nat)
  | [] => if cur.isEmpty then [] else [cur]
  | b :: rest =>
    if b = 10 then cur :: splitLinesAux [] rest else splitLinesAux (cur ++ [b]) rest

/-- Split a byte buffer into `getline` lines. -/
def splitLines (bs : List Nat) : List (List Nat) := splitLinesAux [] bs

/-- Pair each element with its position, counting from `n`. -/
def numberFrom {α : Type} : Nat → List α → List (Nat × α)
  | _, [] => []
  | n, a :: as => (n, a) :: numberFrom (n + 1) as

/-- Model of `sscanf(line, "v %f %f %f", ...) == 3`: literal `v`, then three
`%f` conversions (each skips leading whitespace); trailing bytes are ignored. -/
def scanV (l : List Nat) : Option vec3f :=
  match l with
  | 118 :: r =>
    match scanFloat r with
    | some (x, r1) =>
      match scanFloat r1 with
      | some (y, r2) =>
        match scanFloat r2 with
        | some (z, _) => some (vec3f.ofFloats x y z)
        | none => none
      | none => none
    | none => none
  | _ => none

/-- Model of `sscanf(line, "f %d %d %d %d", ...) == 4`. -/
def scanF4 (l : List Nat) : Option (Int × Int × Int × Int) :=
  match l with
  | 102 :: r =>
    match scanInt r with
    | some (i, r1) =>
      match scanInt r1 with
      | some (j, r2) =>
        match scanInt r2 with
        | some (k, r3) =>
          match scanInt r3 with
          | some (l4, _) => some (i, j, k, l4)
          | none => none
        | none => none
      | none => none
    | none => none
  | _ => none

/-- Model of `sscanf(line, "f %d %d %d", ...) == 3`. -/
def scanF3 (l : List Nat) : Option (Int × Int × Int) :=
  match l with
  | 102 :: r =>
    match scanInt r with
    | some (i, r1) =>
      match scanInt r1 with
      | some (j, r2) =>
        match scanInt r2 with
        | some (k, _) => some (i, j, k)
        | none => none
      | none => none
    | none => none
  | _ => none

/-- One iteration of the `load_obj` line loop on state (mesh, diagnostics),
given the (1-based line number, line) pair. -/
def objStep (acc : Mesh × List Diag) (nl : Nat × List Nat) : Mesh × List Diag :=
  let m := acc.1
  let ds := acc.2
  let n := nl.1
  let line := nl.2
  if line.isEmpty then acc
  else if starts_with line (bytesOf "v ") then
    match scanV line with
    | some v => ({ m with vertexes := m.vertexes ++ [v] }, ds)
    | none => (m, ds ++ [(n, "not a recognized vertex format")])
  else if starts_with line (bytesOf "f ") then
    match scanF4 line with
    | some (i, j, k, l) =>
      let vcount := m.vertexes.length
      if idx_ok i vcount && idx_ok j vcount && idx_ok k vcount && idx_ok l vcount then
        ({ m with faces := m.faces ++ [4],
                  indexes := m.indexes ++ [i - 1, j - 1, k - 1, l - 1] }, ds)
      else (m, ds ++ [(n, "invalid index")])
    | none =>
      match scanF3 line with
      | some (i, j, k) =>
        let vcount := m.vertexes.length
        if idx_ok i vcount && idx_ok j vcount && idx_ok k vcount then
          ({ m with faces := m.faces ++ [3],
                    indexes := m.indexes ++ [i - 1, j - 1, k - 1] }, ds)
        else (m, ds ++ [(n, "invalid index")])
      | none => (m, ds ++ [(n, "not a valid index format")])
  else acc

/-- The text parser `load_obj` on a file's bytes.  It always returns a mesh;
diagnostics go to a side channel. -/
def load_obj (bs : List Nat) : Mesh × List Diag :=
  (numberFrom 1 (splitLines bs)).foldl objStep (⟨[], [], []⟩, [])

/-- The counts declared by a PLY header (`struct PlyHeader`). -/
structure PlyHeader where
  vertex_count : Nat := 0
  face_count : Nat := 0
deriving DecidableEq

/-- Size in bytes of one packed vertex record (`PlyHeader::vertex_size`). -/
def PlyHeader.vertex_size : Nat := 12

/-- The states of the header parser's linear state machine. -/
inductive PlyState where
  | expectMagic
  | expectFormat
  | expectVertexElement
  | expectVertexX
  | expectVertexY
  | expectVertexZ
  | expectFaceElement
  | expectFaceVertexIndex
  | expectEndHeader
  | expectData
deriving DecidableEq

/-- The diagnostic message `parse_ply_header` emits when a line deviates from
the grammar at a given state. -/
def stateMsg : PlyState → String
  | .expectMagic => "not a PLY file"
  | .expectFormat => "unsupported format"
  | .expectVertexElement => "unsupported vertex element"
  | .expectVertexX => "unsupported vertex property"
  | .expectVertexY => "unsupported vertex property"
  | .expectVertexZ => "unsupported vertex property"
  | .expectFaceElement => "unsupported face element"
  | .expectFaceVertexIndex => "unsupported vertex_index property"
  | .expectEndHeader => "unsupported field"
  | .expectData => "missing newline after end_header"

/-- Match the literal characters of an `sscanf` format against the input. -/
def matchLit : List Nat → List Nat → Option (List Nat)
  | l, [] => some l
  | [], _ :: _ => none
  | b :: l, p :: ps => if b = p then matchLit l ps else none

/-- One more than the maximum `size_t` value on the 64-bit target. -/
def SIZE_T_MOD : Nat := 2 ^ 64

/-- Model of an `sscanf` `%zu` conversion: skip whitespace, optional sign, at
least one digit; `strtoull` reduces the value (negated for `-`) mod `2^64`. -/
def scanSizeT (l : List Nat) : Option (Nat × List Nat) :=
  match skipWS l with
  | 45 :: r => (scanUNat r).map (fun p => ((SIZE_T_MOD - p.1 % SIZE_T_MOD) % SIZE_T_MOD, p.2))
  | 43 :: r => (scanUNat r).map (fun p => (p.1 % SIZE_T_MOD, p.2))
  | r => (scanUNat r).map (fun p => (p.1 % SIZE_T_MOD, p.2))

/-- Model of `sscanf(line, "element vertex %zu", ...) == 1`.  A whitespace
directive in an `sscanf` format matches any run of whitespace, including an
empty one; trailing bytes after the number are ignored. -/
def scanElementVertex (l : List Nat) : Option Nat :=
  match matchLit l (bytesOf "element") with
  | none => none
  | some r1 =>
    match matchLit (skipWS r1) (bytesOf "vertex") with
    | none => none
    | some r2 => (scanSizeT r2).map Prod.fst

/-- Model of `sscanf(line, "element face %zu", ...) == 1`. -/
def scanElementFace (l : List Nat) : Option Nat :=
  match matchLit l (bytesOf "element") with
  | none => none
  | some r1 =>
    match matchLit (skipWS r1) (bytesOf "face") with
    | none => none
    | some r2 => (scanSizeT r2).map Prod.fst

/-- One iteration of the `parse_ply_header` line loop on state
(machine state, header, diagnostics), given the (line number, line) pair. -/
def headerStep (acc : PlyState × PlyHeader × List Diag) (nl : Nat × List Nat) :
    PlyState × PlyHeader × List Diag :=
  let st := acc.1
  let ph := acc.2.1
  let ds := acc.2.2
  let n := nl.1
  let line := nl.2
  match st with
  | .expectMagic =>
    if line = bytesOf "ply" then (.expectFormat, ph, ds)
    else (st, ph, ds ++ [(n, stateMsg st)])
  | .expectFormat =>
    if line = bytesOf "format binary_little_endian 1.0" then (.expectVertexElement, ph, ds)
    else (st, ph, ds ++ [(n, stateMsg st)])
  | .expectVertexElement =>
    match scanElementVertex line with
    | some c => (.expectVertexX, { ph with vertex_count := c }, ds)
    | none => (st, ph, ds ++ [(n, stateMsg st)])
  | .expectVertexX =>
    if line = bytesOf "property float x" then (.expectVertexY, ph, ds)
    else (st, ph, ds ++ [(n, stateMsg st)])
  | .expectVertexY =>
    if line = bytesOf "property float y" then (.expectVertexZ, ph, ds)
    else (st, ph, ds ++ [(n, stateMsg st)])
  | .expectVertexZ =>
    if line = bytesOf "property float z" then (.expectFaceElement, ph, ds)
    else (st, ph, ds ++ [(n, stateMsg st)])
  | .expectFaceElement =>
    match scanElementFace line with
    | some c => (.expectFaceVertexIndex, { ph with face_count := c }, ds)
    | none => (st, ph, ds ++ [(n, stateMsg st)])
  | .expectFaceVertexIndex =>
    if line = bytesOf "property list uchar uint vertex_index" then (.expectEndHeader, ph, ds)
    else (st, ph, ds ++ [(n, stateMsg st)])
  | .expectEndHeader =>
    if line = bytesOf "end_header" then (.expectData, ph, ds)
    else (st, ph, ds ++ [(n, stateMsg st)])
  | .expectData =>
    (st, ph, ds ++ [(n, stateMsg st)])

/-- The header parser `parse_ply_header` on the header bytes.  It always
returns a header (possibly with defaulted counts); grammar deviations only add
diagnostics.  The final check models the source's post-loop test: after the
`getline` loop, `line` still holds the last line when the buffer did not end
with a newline. -/
def parse_ply_header (bs : List Nat) : PlyHeader × List Diag :=
  let lines := splitLines bs
  let r := (numberFrom 1 lines).foldl headerStep (.expectMagic, {}, [])
  let ds :=
    if bs.getLast? = some 10 ∨ bs = [] then r.2.2
    else r.2.2 ++ [(lines.length, "missing newline after end_header")]
  (r.2.1, ds)

/-- Position just past the first occurrence of `needle` in `s`
(`str.find(needle) + needle.size()` when found). -/
def findSub (hay needle : List Nat) : Option Nat :=
  match hay with
  | [] => if needle.isEmpty then some 0 else none
  | _ :: rest => if starts_with hay needle then some 0 else (findSub rest needle).map (· + 1)

/-- Model of the source's `find_end_of`. -/
def find_end_of (s needle : List Nat) : Option Nat :=
  (findSub s needle).map (· + needle.length)

/-- The end-of-header marker searched for by `load_ply`. -/
def endHeaderMarker : List Nat := bytesOf "end_header\n"

/-- `INT32_MAX`. -/
def INT32_MAX : Nat := 2147483647

/-- The source's `is_mul_safe` on 64-bit `size_t` values:
`y == 0 || x*y/y == x`, with the product wrapping mod `2^64`. -/
def is_mul_safe (x y : Nat) : Bool :=
  y = 0 || (x * y) % SIZE_T_MOD / y = x

/-- The binary-format index check (`ply_idx_ok` in the source):
`index < uint32_t(INT32_MAX) && size_t(index) < vertex_count`. -/
def ply_idx_ok (index : Nat) (vertex_count : Nat) : Bool :=
  index < INT32_MAX && index < vertex_count

/-- The `uint32_t` read by `memcpy(&index, rpos, 4)` from a little-endian
byte buffer.  File bytes are 0–255; `% 256` makes this total on `List Nat`. -/
def read_u32le (bs : List Nat) : Nat :=
  match bs with
  | b0 :: b1 :: b2 :: b3 :: _ =>
    b0 % 256 + 256 * (b1 % 256) + 65536 * (b2 % 256) + 16777216 * (b3 % 256)
  | _ => 0

/-- The inner loop of `load_ply`'s face block: read `count` 4-byte indexes,
checking each with `ply_idx_ok` and appending it to the mesh. -/
def readIndexes (vertex_count : Nat) (m : Mesh) (rpos : List Nat) :
    Nat → PResult (Mesh × List Nat)
  | 0 => .ok (m, rpos)
  | c + 1 =>
    if rpos.length < 4 then .fatal "Expected index but reached end of file"
    else
      let index := read_u32le rpos
      if ply_idx_ok index vertex_count then
        readIndexes vertex_count { m with indexes := m.indexes ++ [(index : Int)] }
          (rpos.drop 4) c
      else .fatal "Invalid index"

/-- The outer loop of `load_ply`'s face block: for each face, read the 1-byte
index count, push it on `faces`, and read that many indexes. -/
def readFaces (vertex_count : Nat) (m : Mesh) (rpos : List Nat) :
    Nat → PResult (Mesh × List Nat)
  | 0 => .ok (m, rpos)
  | f + 1 =>
    match rpos with
    | [] => .fatal "Expected more faces but reached end of file"
    | b :: rest =>
      let index_count := b % 256
      match readIndexes vertex_count { m with faces := m.faces ++ [(index_count : Int)] }
          rest index_count with
      | .ok (m', rest') => readFaces vertex_count m' rest' f
      | .fatal e => .fatal e

/-- The payload-extraction stage of `load_ply`: overflow guard, vertex-block
bounds check and `memcpy`, then the face block.  Leftover bytes only produce a
non-fatal diagnostic in the source and do not affect the returned mesh. -/
def ply_extract (ph : PlyHeader) (data : List Nat) : PResult Mesh :=
  if is_mul_safe PlyHeader.vertex_size ph.vertex_count then
    let vertex_data_size := PlyHeader.vertex_size * ph.vertex_count
    if data.length < vertex_data_size then
      .fatal "Expected more bytes of vertex data"
    else
      let m0 : Mesh :=
        { vertexes := (List.range ph.vertex_count).map
            (fun i => vec3f.ofBytes ((data.drop (12 * i)).take 12)),
          indexes := [], faces := [] }
      match readFaces ph.vertex_count m0 (data.drop vertex_data_size) ph.face_count with
      | .ok (m, _) => .ok m
      | .fatal e => .fatal e
  else .fatal "Vertex count too large"

/-- The binary parser `load_ply` on a file's bytes: split at the first
`end_header\n` (fatal if absent), parse the header, then extract the payload. -/
def load_ply (s : List Nat) : PResult Mesh :=
  match find_end_of s endHeaderMarker with
  | none => .fatal "Could not find end_header"
  | some header_size =>
    ply_extract (parse_ply_header (s.take header_size)).1 (s.drop header_size)

/-- The suffix of a filename from its last `.` onward (`strrchr(name, '.')`),
or `none` when the name has no dot. -/
def strrchr_dot : List Char → Option (List Char)
  | [] => none
  | c :: rest =>
    match strrchr_dot rest with
    | some r => some r
    | none => if c = '.' then some (c :: rest) else none

/-- Parameters handed to the export stage (`struct AlembicExportParameters`);
`fps` is modelled in `ℚ` (the `double` rounding of `1.0/24.0` is not
modelled; no claim depends on the rounded value). -/
structure AlembicExportParameters where
  application_name : String
  scene_description : String
  object_name : String
  fps : ℚ
deriving DecidableEq

/-- One `OPolyMeshSchema::Sample` as constructed by `export_to_alembic`. -/
structure AlembicSample where
  positions : List vec3f
  face_vertex_indices : List Int
  face_vertex_counts : List Int
deriving DecidableEq

/-- What `export_to_alembic` hands to the Alembic library: the metadata
strings, the uniform time sampling (`TimeSampling(1.0/fps, 0.0)`), the one
custom boolean property, and the per-mesh samples set in order. -/
structure AlembicArchive where
  application_name : String
  scene_description : String
  object_name : String
  time_per_cycle : ℚ
  start_time : ℚ
  is_subdivision_surface : Bool
  samples : List AlembicSample
deriving DecidableEq

/-- The sample built from one mesh inside `export_to_alembic`'s loop. -/
def meshToSample (m : Mesh) : AlembicSample :=
  ⟨m.vertexes, m.indexes, m.faces⟩

/-- The export stage `export_to_alembic`, modelled as the value it writes. -/
def export_to_alembic (params : AlembicExportParameters) (meshes : List Mesh) :
    AlembicArchive :=
  { application_name := params.application_name,
    scene_description := params.scene_description,
    object_name := params.object_name,
    time_per_cycle := 1 / params.fps,
    start_time := 0,
    is_subdivision_surface := false,
    samples := meshes.map meshToSample }

/-- Modelled from the spec: the Alembic library itself is not part of this
repository; per the spec's output-collaborator contract, uniform time sampling
assigns sample `i` the time `start_time + i * time_per_cycle` (samples "at
uniform intervals of `1/frames_per_second` starting at time 0"). -/
def sampleTime (a : AlembicArchive) (i : Nat) : ℚ :=
  a.start_time + (i : ℚ) * a.time_per_cycle

/-- The parameters hard-coded in `main`. -/
def default_params : AlembicExportParameters :=
  { application_name := "AlEx",
    scene_description := "An example mesh animation for Blender.",
    object_name := "exobj",
    fps := 24 }

/-- Extension dispatch for one input file, as in `main`'s loop: `.ply` goes to
the binary parser, `.obj` to the text parser, anything else is fatal.  The
text parser's diagnostics are a side channel and are dropped here. -/
def parse_file (name : String) (content : List Nat) : PResult Mesh :=
  match strrchr_dot name.data with
  | some ext =>
    if ext = ".ply".data then load_ply content
    else if ext = ".obj".data then .ok (load_obj content).1
    else .fatal "Unknown file type"
  | none => .fatal "Unknown file type"

/-- The mesh-collection loop of `main`: parse each input file in argument
order, stopping at the first fatal error. -/
def main_loop : List (String × List Nat) → PResult (List Mesh)
  | [] => .ok []
  | (name, content) :: rest =>
    match parse_file name content with
    | .ok m =>
      match main_loop rest with
      | .ok ms => .ok (m :: ms)
      | .fatal e => .fatal e
    | .fatal e => .fatal e

/-- The whole program on its input files: collect the meshes, then export.
On a fatal error the export stage is never reached. -/
def run_main (files : List (String × List Nat)) : PResult AlembicArchive :=
  match main_loop files with
  | .ok meshes => .ok (export_to_alembic default_params meshes)
  | .fatal e => .fatal e

/-- The process exit status: 0 on success, 1 (`EXIT_FAILURE` / `return 1`) on
any fatal condition. -/
def exit_code (files : List (String × List Nat)) : Nat :=
  match run_main files with
  | .ok _ => 0
  | .fatal _ => 1

/-- The structural mesh invariant: face sizes sum to the index count, and
every index is in range for the mesh's own vertex list. -/
def meshInv (m : Mesh) : Prop :=
  m.faces.sum = (m.indexes.length : Int) ∧
  ∀ e ∈ m.indexes, 0 ≤ e ∧ e < (m.vertexes.length : Int)

/-- The face-block invariant relative to a declared vertex count: every index
already stored passed `ply_idx_ok`. -/
def plyInv (vc : Nat) (m : Mesh) : Prop :=
  m.faces.sum = (m.indexes.length : Int) ∧
  ∀ e ∈ m.indexes, 0 ≤ e ∧ e < (vc : Int) ∧ e < (INT32_MAX : Int)

/-- Spec-side predicate, following the claim's words: a vertex line "matches
exactly three floating-point tokens" when the `v` is followed by three float
tokens and nothing but whitespace after them. -/
def matches_exactly_three_floats (l : List Nat) : Bool :=
  match l with
  | 118 :: r =>
    match scanFloat r with
    | some (_, r1) =>
      match scanFloat r1 with
      | some (_, r2) =>
        match scanFloat r2 with
        | some (_, r3) => (skipWS r3).isEmpty
        | none => false
      | none => false
    | none => false
  | _ => false

/-- Spec-side predicate, following the claim's words: a binary face index is
accepted iff `index < vertex_count` and `index <= INT32_MAX`. -/
def claimed_ply_idx_ok (index : Nat) (vertex_count : Nat) : Bool :=
  index < vertex_count && index ≤ INT32_MAX

/-- A PLY file whose first header line deviates from the grammar (no `ply`
magic) but which otherwise declares one vertex and no faces. -/
def badMagicHeader : List Nat :=
  bytesOf ("bogus\nply\nformat binary_little_endian 1.0\nelement vertex 1\n" ++
    "property float x\nproperty float y\nproperty float z\nelement face 0\n" ++
    "property list uchar uint vertex_index\nend_header\n")

/-- The bad-magic header followed by a 12-byte vertex payload. -/
def badMagicFile : List Nat := badMagicHeader ++ List.replicate 12 0

/-- A well-formed PLY file declaring zero vertices and zero faces. -/
def emptyPlyFile : List Nat :=
  bytesOf ("ply\nformat binary_little_endian 1.0\nelement vertex 0\n" ++
    "property float x\nproperty float y\nproperty float z\nelement face 0\n" ++
    "property list uchar uint vertex_index\nend_header\n")

/-- A well-formed PLY file whose header declares a vertex count whose product
with 12 overflows a 64-bit `size_t`. -/
def overflowPlyFile : List Nat :=
  bytesOf ("ply\nformat binary_little_endian 1.0\nelement vertex 1600000000000000000\n" ++
    "property float x\nproperty float y\nproperty float z\nelement face 0\n" ++
    "property list uchar uint vertex_index\nend_header\n")

/-- A well-formed PLY file with three vertices and one triangle. -/
def triPlyFile : List Nat :=
  bytesOf ("ply\nformat binary_little_endian 1.0\nelement vertex 3\n" ++
    "property float x\nproperty float y\nproperty float z\nelement face 1\n" ++
    "property list uchar uint vertex_index\nend_header\n") ++
  List.replicate 36 0 ++ [3, 0, 0, 0, 0, 1, 0, 0, 0, 2, 0, 0, 0]

/-- The scanned value of the token `0`. -/
def sf0 : ScannedFloat := ⟨false, 0, 0, 0, 0⟩

/-- The scanned value of the token `1`. -/
def sf1 : ScannedFloat := ⟨false, 1, 0, 0, 0⟩

/-- The scanned value of the token `2`. -/
def sf2 : ScannedFloat := ⟨false, 2, 0, 0, 0⟩

/-- An OBJ file with one triangle (the spec's scenario file A). -/
def triObjA : List Nat := bytesOf "v 0 0 0\nv 1 0 0\nv 0 1 0\nf 1 2 3\n"

/-- The mesh parsed from `triObjA`. -/
def triMeshA : Mesh :=
  ⟨[vec3f.ofFloats sf0 sf0 sf0, vec3f.ofFloats sf1 sf0 sf0, vec3f.ofFloats sf0 sf1 sf0],
   [0, 1, 2], [3]⟩

/-- An OBJ file with one triangle (the spec's scenario file B). -/
def triObjB : List Nat := bytesOf "v 0 0 2\nv 1 0 2\nv 0 1 2\nf 3 2 1\n"

/-- The mesh parsed from `triObjB`. -/
def triMeshB : Mesh :=
  ⟨[vec3f.ofFloats sf0 sf0 sf2, vec3f.ofFloats sf1 sf0 sf2, vec3f.ofFloats sf0 sf1 sf2],
   [2, 1, 0], [3]⟩

/-- The spec's two-triangle scenario: files A and B in command-line order. -/
def twoFrameRun : List (String × List Nat) := [("A.obj", triObjA), ("B.obj", triObjB)]

/-- An OBJ file mixing vertices, a quad, a triangle, and rejected lines. -/
def mixedObjFile : List Nat :=
  bytesOf ("v 0 0 0\nv 1 0 0\nv 1 1 0\nv 0 1 0\nf 1 2 3 4\nf 1 2 5\nf 1 2 3\n" ++
    "v bad line\nx ignored\n")

/-- The scanned value of the token `3`. -/
def sf3 : ScannedFloat := ⟨false, 3, 0, 0, 0⟩

/-- The mesh parsed from `triPlyFile`. -/
def triPlyMesh : Mesh :=
  ⟨[vec3f.ofBytes (List.replicate 12 0), vec3f.ofBytes (List.replicate 12 0),
    vec3f.ofBytes (List.replicate 12 0)], [0, 1, 2], [3]⟩

/-! ## Helper lemmas -/

theorem idx_ok_iff (i : Int) (vc : Nat) :
    idx_ok i vc = true ↔ 1 ≤ i ∧ i ≤ (vc : Int) := by
  simp only [idx_ok, Bool.and_eq_true, decide_eq_true_eq]
  omega

theorem ply_idx_ok_iff (index vc : Nat) :
    ply_idx_ok index vc = true ↔ index < INT32_MAX ∧ index < vc := by
  simp [ply_idx_ok]

theorem is_mul_safe_false_of_overflow (x y : Nat) (h : SIZE_T_MOD ≤ x * y) :
    is_mul_safe x y = false := by
  unfold is_mul_safe
  have hy : y ≠ 0 := by
    rintro rfl
    simp [SIZE_T_MOD] at h
  have hmod : (x * y) % SIZE_T_MOD < x * y :=
    lt_of_lt_of_le (Nat.mod_lt _ (by unfold SIZE_T_MOD; positivity)) h
  have hdiv : (x * y) % SIZE_T_MOD / y < x :=
    (Nat.div_lt_iff_lt_mul (Nat.pos_of_ne_zero hy)).mpr hmod
  simp [hy]
  omega

theorem is_mul_safe_true_of_no_overflow (x y : Nat) (h : x * y < SIZE_T_MOD) :
    is_mul_safe x y = true := by
  unfold is_mul_safe
  rcases Nat.eq_zero_or_pos y with hy | hy
  · simp [hy]
  · have h2 : x * y / y = x := Nat.mul_div_cancel _ hy
    simp [Nat.mod_eq_of_lt h, h2]

theorem objStep_preserves (acc : Mesh × List Diag) (nl : Nat × List Nat)
    (h : meshInv acc.1) : meshInv (objStep acc nl).1 := by
  obtain ⟨m, ds⟩ := acc
  obtain ⟨n, line⟩ := nl
  obtain ⟨hsum, hbound⟩ := h
  unfold objStep
  dsimp only at *
  split
  · exact ⟨hsum, hbound⟩
  split
  · split
    · refine ⟨hsum, fun e he => ?_⟩
      obtain ⟨h1, h2⟩ := hbound e he
      refine ⟨h1, ?_⟩
      simp only [List.length_append, List.length_cons, List.length_nil]
      push_cast
      omega
    · exact ⟨hsum, hbound⟩
  split
  · split
    · rename_i i j k l heq
      split
      · rename_i hok
        simp only [Bool.and_eq_true, idx_ok_iff] at hok
        constructor
        · simp only [List.sum_append, List.length_append]
          simp [hsum]
        · intro e he
          dsimp only at he ⊢
          simp only [List.mem_append, List.mem_cons, List.not_mem_nil, or_false] at he
          rcases he with he | he | he | he | he
          · exact hbound e he
          all_goals (subst he; omega)
      · exact ⟨hsum, hbound⟩
    · split
      · rename_i i j k heq
        split
        · rename_i hok
          simp only [Bool.and_eq_true, idx_ok_iff] at hok
          constructor
          · simp only [List.sum_append, List.length_append]
            simp [hsum]
          · intro e he
            dsimp only at he ⊢
            simp only [List.mem_append, List.mem_cons, List.not_mem_nil, or_false] at he
            rcases he with he | he | he | he
            · exact hbound e he
            all_goals (subst he; omega)
        · exact ⟨hsum, hbound⟩
      · exact ⟨hsum, hbound⟩
  · exact ⟨hsum, hbound⟩

theorem foldl_objStep_inv (ls : List (Nat × List Nat)) (acc : Mesh × List Diag)
    (h : meshInv acc.1) : meshInv (ls.foldl objStep acc).1 := by
  induction ls generalizing acc with
  | nil => exact h
  | cons nl rest ih => exact ih _ (objStep_preserves _ _ h)

theorem load_obj_inv (bs : List Nat) : meshInv (load_obj bs).1 := by
  unfold load_obj
  exact foldl_objStep_inv _ _ ⟨rfl, by simp⟩

theorem readIndexes_spec (c : Nat) (vc : Nat) (m : Mesh) (bs : List Nat)
    (m' : Mesh) (rest : List Nat)
    (h : readIndexes vc m bs c = .ok (m', rest)) :
    m'.vertexes = m.vertexes ∧ m'.faces = m.faces ∧
    ∃ new : List Int, m'.indexes = m.indexes ++ new ∧ new.length = c ∧
      ∀ e ∈ new, 0 ≤ e ∧ e < (vc : Int) ∧ e < (INT32_MAX : Int) := by
  induction c generalizing m bs with
  | zero =>
    unfold readIndexes at h
    injection h with h
    injection h with h1 h2
    subst h1
    exact ⟨rfl, rfl, [], by simp, rfl, by simp⟩
  | succ c ih =>
    unfold readIndexes at h
    split at h
    · exact absurd h (by simp)
    · dsimp only at h
      split at h
      · rename_i hok
        obtain ⟨hv, hf, new, hidx, hlen, hbnd⟩ := ih _ _ h
        refine ⟨hv, hf, ((read_u32le bs : Nat) : Int) :: new, ?_, by simp [hlen], ?_⟩
        · simpa using hidx
        · intro e he
          rcases List.mem_cons.mp he with he | he
          · subst he
            rw [ply_idx_ok_iff] at hok
            refine ⟨by positivity, ?_, ?_⟩ <;> [exact_mod_cast hok.2; exact_mod_cast hok.1]
          · exact hbnd e he
      · exact absurd h (by simp)

theorem readFaces_spec (f : Nat) (vc : Nat) (m : Mesh) (bs : List Nat)
    (m' : Mesh) (rest : List Nat)
    (h : readFaces vc m bs f = .ok (m', rest)) (hinv : plyInv vc m) :
    m'.vertexes = m.vertexes ∧ plyInv vc m' := by
  induction f generalizing m bs with
  | zero =>
    unfold readFaces at h
    injection h with h
    injection h with h1 h2
    subst h1
    exact ⟨rfl, hinv⟩
  | succ f ih =>
    unfold readFaces at h
    split at h
    · exact absurd h (by simp)
    · rename_i b rest2
      dsimp only at h
      split at h
      · rename_i mm rr heq
        obtain ⟨hv, hf, new, hidx, hlen, hbnd⟩ :=
          readIndexes_spec _ _ _ _ _ _ heq
        have hmm : plyInv vc mm := by
          obtain ⟨hs, hb⟩ := hinv
          constructor
          · rw [hf, hidx]
            dsimp only
            simp only [List.sum_append, List.length_append, List.sum_cons, List.sum_nil]
            push_cast
            omega
          · intro e he
            rw [hidx] at he
            dsimp only at he
            rcases List.mem_append.mp he with he | he
            · exact hb e he
            · exact hbnd e he
        have := ih _ _ h hmm
        rw [hv] at this
        exact this
      · exact absurd h (by simp)

theorem ply_extract_inv (ph : PlyHeader) (data : List Nat) (m : Mesh)
    (h : ply_extract ph data = .ok m) :
    meshInv m ∧ m.vertexes.length = ph.vertex_count ∧
    ∀ e ∈ m.indexes, 0 ≤ e ∧ e < (INT32_MAX : Int) := by
  unfold ply_extract at h
  split at h
  · dsimp only at h
    split at h
    · exact absurd h (by simp)
    · split at h
      · rename_i mm rr heq
        injection h with h
        subst h
        have hm0 : plyInv ph.vertex_count
            ⟨(List.range ph.vertex_count).map
              (fun i => vec3f.ofBytes ((data.drop (12 * i)).take 12)), [], []⟩ :=
          ⟨by simp, by simp⟩
        obtain ⟨hv, hinv⟩ := readFaces_spec _ _ _ _ _ _ heq hm0
        obtain ⟨hsum, hbnd⟩ := hinv
        have hlen : mm.vertexes.length = ph.vertex_count := by
          rw [hv]; simp
        refine ⟨⟨hsum, fun e he => ?_⟩, hlen, fun e he => ⟨(hbnd e he).1, (hbnd e he).2.2⟩⟩
        obtain ⟨h1, h2, h3⟩ := hbnd e he
        exact ⟨h1, by rw [hlen]; exact h2⟩
      · exact absurd h (by simp)
  · exact absurd h (by simp)

theorem load_ply_inv (s : List Nat) (m : Mesh) (h : load_ply s = .ok m) :
    meshInv m := by
  unfold load_ply at h
  split at h
  · exact absurd h (by simp)
  · exact (ply_extract_inv _ _ _ h).1

theorem main_loop_ok_spec (files : List (String × List Nat)) (ms : List Mesh)
    (h : main_loop files = .ok ms) :
    ms.length = files.length ∧
    ∀ i (hi : i < files.length) (hi' : i < ms.length),
      parse_file (files.get ⟨i, hi⟩).1 (files.get ⟨i, hi⟩).2 = .ok (ms.get ⟨i, hi'⟩) := by
  induction files generalizing ms with
  | nil =>
    unfold main_loop at h
    injection h with h
    subst h
    exact ⟨rfl, fun i hi => absurd hi (by simp)⟩
  | cons f rest ih =>
    obtain ⟨fn, fc⟩ := f
    unfold main_loop at h
    split at h
    · rename_i mfst hpf
      split at h
      · rename_i ms' hrest
        injection h with h
        subst h
        obtain ⟨hlen, hget⟩ := ih _ hrest
        refine ⟨by simp [hlen], ?_⟩
        intro i hi hi'
        cases i with
        | zero => simpa using hpf
        | succ i =>
          simpa using hget i (by simpa using hi) (by simpa using hi')
      · exact absurd h (by simp)
    · exact absurd h (by simp)

theorem main_loop_fatal_spec (name : String) (content : List Nat) (msg : String)
    (hpf : parse_file name content = .fatal msg)
    (pre post post' : List (String × List Nat)) :
    main_loop (pre ++ (name, content) :: post) =
      main_loop (pre ++ (name, content) :: post') ∧
    ∃ msg', main_loop (pre ++ (name, content) :: post) = .fatal msg' := by
  induction pre with
  | nil =>
    simp only [List.nil_append]
    unfold main_loop
    rw [hpf]
    exact ⟨rfl, msg, rfl⟩
  | cons p pre' ih =>
    obtain ⟨pn, pc⟩ := p
    simp only [List.cons_append]
    unfold main_loop
    rcases hp : parse_file pn pc with m | e
    · obtain ⟨heq, msg', hfat⟩ := ih
      constructor
      · rw [heq]
      · rw [hfat]
        exact ⟨msg', rfl⟩
    · exact ⟨rfl, e, rfl⟩

theorem bytes_v : bytesOf "v " = [118, 32] := by decide

theorem bytes_f : bytesOf "f " = [102, 32] := by decide

theorem starts_with_pair (l : List Nat) (a b : Nat)
    (h : starts_with l [a, b] = true) : ∃ rest, l = a :: b :: rest := by
  match l with
  | [] => simp [starts_with] at h
  | [c] => simp [starts_with] at h
  | c :: d :: rest =>
    simp [starts_with] at h
    exact ⟨rest, by rw [h.1, h.2]⟩

theorem objStep_v (m : Mesh) (ds : List Diag) (n : Nat) (rest : List Nat) :
    objStep (m, ds) (n, 118 :: 32 :: rest) =
      match scanV (118 :: 32 :: rest) with
      | some v => ({ m with vertexes := m.vertexes ++ [v] }, ds)
      | none => (m, ds ++ [(n, "not a recognized vertex format")]) := by
  unfold objStep
  rw [bytes_v]
  simp [starts_with]

theorem objStep_f (m : Mesh) (ds : List Diag) (n : Nat) (rest : List Nat) :
    objStep (m, ds) (n, 102 :: 32 :: rest) =
      (match scanF4 (102 :: 32 :: rest) with
      | some (i, j, k, l) =>
        if idx_ok i m.vertexes.length && idx_ok j m.vertexes.length &&
            idx_ok k m.vertexes.length && idx_ok l m.vertexes.length then
          ({ m with faces := m.faces ++ [4],
                    indexes := m.indexes ++ [i - 1, j - 1, k - 1, l - 1] }, ds)
        else (m, ds ++ [(n, "invalid index")])
      | none =>
        match scanF3 (102 :: 32 :: rest) with
        | some (i, j, k) =>
          if idx_ok i m.vertexes.length && idx_ok j m.vertexes.length &&
              idx_ok k m.vertexes.length then
            ({ m with faces := m.faces ++ [3],
                      indexes := m.indexes ++ [i - 1, j - 1, k - 1] }, ds)
          else (m, ds ++ [(n, "invalid index")])
        | none => (m, ds ++ [(n, "not a valid index format")])) := by
  unfold objStep
  rw [bytes_v, bytes_f]
  simp [starts_with]

/-! ## Claims -/

set_option maxRecDepth 1000000

/-- Claim C1, counterexample: a PLY file whose first header line deviates from
the grammar at the magic state gets a diagnostic, yet the header parse is not
aborted — `load_ply` proceeds to payload extraction with the counts of the
deviating header and returns a mesh, contradicting the claim that any
deviation aborts the whole parse fatally. -/
theorem C1_counterexample :
    (parse_ply_header badMagicHeader).2 = [(1, "not a PLY file")] ∧
    load_ply badMagicFile = .ok ⟨[vec3f.ofBytes (List.replicate 12 0)], [], []⟩ := by
  constructor <;> decide

/-- Claim C1, amended: a header line that deviates from the grammar at any
state emits exactly one line-numbered diagnostic carrying that state's message
and leaves the state and counts unchanged; `parse_ply_header` never aborts.
`load_ply` is fatal before header parsing only when the `end_header` marker is
missing, and otherwise always proceeds to payload extraction using whatever
counts the header parse returned. -/
theorem C1_claim :
    (∀ (st : PlyState) (ph : PlyHeader) (ds : List Diag) (n : Nat) (line : List Nat),
      headerStep (st, ph, ds) (n, line) = (st, ph, ds ++ [(n, stateMsg st)]) ∨
      (headerStep (st, ph, ds) (n, line)).2.2 = ds) ∧
    (∀ s : List Nat, find_end_of s endHeaderMarker = none →
      load_ply s = .fatal "Could not find end_header") ∧
    (∀ (s : List Nat) (hs : Nat), find_end_of s endHeaderMarker = some hs →
      load_ply s = ply_extract (parse_ply_header (s.take hs)).1 (s.drop hs)) := by
  refine ⟨?_, ?_, ?_⟩
  · intro st ph ds n line
    cases st <;> (unfold headerStep; dsimp only) <;> try split
    all_goals simp
  · intro s h
    unfold load_ply
    rw [h]
  · intro s hs h
    unfold load_ply
    rw [h]

/-- Claim C1, witness: the two fatal/non-fatal paths at concrete inputs. -/
theorem C1_witness :
    load_ply (bytesOf "not a ply file") = .fatal "Could not find end_header" ∧
    load_ply badMagicFile =
      ply_extract (parse_ply_header (badMagicFile.take badMagicHeader.length)).1
        (badMagicFile.drop badMagicHeader.length) :=
  ⟨C1_claim.2.1 _ (by decide), C1_claim.2.2 _ badMagicHeader.length (by decide)⟩

/-- Claim C2, counterexample: a zero-byte PLY file does not yield an empty
mesh; `load_ply` aborts fatally because the end-of-header marker is absent. -/
theorem C2_counterexample :
    load_ply [] = .fatal "Could not find end_header" := by decide

/-- Claim C2, amended: `load_obj` on a zero-byte file returns the empty mesh
with no diagnostics, and a PLY file whose valid header declares zero vertices
and zero faces (with empty payload) yields the empty mesh; but a zero-byte PLY
file aborts fatally for lack of the end-of-header marker. -/
theorem C2_claim :
    load_obj [] = (⟨[], [], []⟩, []) ∧
    load_ply emptyPlyFile = .ok ⟨[], [], []⟩ ∧
    load_ply [] = .fatal "Could not find end_header" := by
  refine ⟨by decide, by decide, by decide⟩

/-- Claim C3, counterexample: the claim's acceptance predicate
(`index < vertex_count` and `index <= INT32_MAX`) accepts the index
`2147483647 = INT32_MAX` when `vertex_count = 2^31`, but the face-block reader
rejects it fatally: the source tests `index < INT32_MAX` strictly. -/
theorem C3_counterexample :
    claimed_ply_idx_ok 2147483647 2147483648 = true ∧
    readIndexes 2147483648 ⟨[], [], []⟩ [255, 255, 255, 127] 1 =
      .fatal "Invalid index" := by
  constructor <;> decide

/-- Claim C3, amended: a 4-byte index read from the payload is accepted iff
`index < vertex_count` and `index < INT32_MAX` (strictly); an accepted index
is appended and parsing continues, a violating index aborts fatally, and any
mesh returned by `load_ply` contains only indexes that passed the strict
`INT32_MAX` cap (a partially built mesh is never returned). -/
theorem C3_claim :
    (∀ index vc : Nat, ply_idx_ok index vc = true ↔ index < INT32_MAX ∧ index < vc) ∧
    (∀ (vc : Nat) (m : Mesh) (bs : List Nat) (c : Nat), ¬ bs.length < 4 →
      (ply_idx_ok (read_u32le bs) vc = true →
        readIndexes vc m bs (c + 1) =
          readIndexes vc { m with indexes := m.indexes ++ [(read_u32le bs : Int)] }
            (bs.drop 4) c) ∧
      (ply_idx_ok (read_u32le bs) vc = false →
        readIndexes vc m bs (c + 1) = .fatal "Invalid index")) ∧
    (∀ (s : List Nat) (m : Mesh), load_ply s = .ok m →
      ∀ e ∈ m.indexes, 0 ≤ e ∧ e < (INT32_MAX : Int)) := by
  refine ⟨ply_idx_ok_iff, ?_, ?_⟩
  · intro vc m bs c hlen
    constructor
    · intro hok
      unfold readIndexes
      rw [if_neg hlen]
      dsimp only
      rw [if_pos hok]
      cases c <;> rfl
    · intro hbad
      unfold readIndexes
      rw [if_neg hlen]
      dsimp only
      rw [if_neg (by simp [hbad])]
  · intro s m h
    unfold load_ply at h
    split at h
    · exact absurd h (by simp)
    · exact (ply_extract_inv _ _ _ h).2.2

/-- Claim C3, witness: acceptance appends the index; violation is fatal. -/
theorem C3_witness :
    readIndexes 1 ⟨[], [], []⟩ [0, 0, 0, 0] 1 = .ok (⟨[], [0], []⟩, []) ∧
    readIndexes 0 ⟨[], [], []⟩ [0, 0, 0, 0] 1 = .fatal "Invalid index" := by
  constructor
  · rw [(C3_claim.2.1 1 ⟨[], [], []⟩ [0, 0, 0, 0] 0 (by decide)).1 (by decide)]
    decide
  · exact (C3_claim.2.1 0 ⟨[], [], []⟩ [0, 0, 0, 0] 0 (by decide)).2 (by decide)

/-- Claim C4, counterexample: the line `v 1 2 3 4` does not consist of exactly
three floating-point tokens, yet the text parser accepts it and appends the
vertex built from the first three tokens, with no diagnostic: `sscanf` ignores
trailing input once three conversions have succeeded. -/
theorem C4_counterexample :
    matches_exactly_three_floats (bytesOf "v 1 2 3 4") = false ∧
    (load_obj (bytesOf "v 1 2 3 4\n")).1.vertexes = [vec3f.ofFloats sf1 sf2 sf3] ∧
    (load_obj (bytesOf "v 1 2 3 4\n")).2 = [] := by
  refine ⟨by decide, by decide, by decide⟩

/-- Claim C4, amended: a `v `-prefixed line is accepted iff its first three
whitespace-separated fields parse as floats (trailing bytes ignored),
otherwise it is rejected with a line-numbered diagnostic and skipped with the
mesh unchanged; an `f `-prefixed line is scanned with four integer conversions
first and then three (trailing bytes ignored), and when both fail it is
rejected with a line-numbered diagnostic and skipped with the mesh unchanged. -/
theorem C4_claim (m : Mesh) (ds : List Diag) (n : Nat) (line : List Nat) :
    (starts_with line (bytesOf "v ") = true →
      (∀ v, scanV line = some v →
        objStep (m, ds) (n, line) = ({ m with vertexes := m.vertexes ++ [v] }, ds)) ∧
      (scanV line = none →
        objStep (m, ds) (n, line) = (m, ds ++ [(n, "not a recognized vertex format")]))) ∧
    (starts_with line (bytesOf "f ") = true →
      (∀ i j k l, scanF4 line = some (i, j, k, l) →
        objStep (m, ds) (n, line) =
          (if idx_ok i m.vertexes.length && idx_ok j m.vertexes.length &&
              idx_ok k m.vertexes.length && idx_ok l m.vertexes.length then
            ({ m with faces := m.faces ++ [4],
                      indexes := m.indexes ++ [i - 1, j - 1, k - 1, l - 1] }, ds)
          else (m, ds ++ [(n, "invalid index")]))) ∧
      (scanF4 line = none → scanF3 line = none →
        objStep (m, ds) (n, line) = (m, ds ++ [(n, "not a valid index format")]))) := by
  constructor
  · intro hv
    obtain ⟨rest, rfl⟩ := starts_with_pair _ _ _ (by rw [← bytes_v]; exact hv)
    constructor
    · intro v hscan
      rw [objStep_v, hscan]
    · intro hscan
      rw [objStep_v, hscan]
  · intro hf
    obtain ⟨rest, rfl⟩ := starts_with_pair _ _ _ (by rw [← bytes_f]; exact hf)
    constructor
    · intro i j k l hscan
      rw [objStep_f, hscan]
    · intro hscan4 hscan3
      rw [objStep_f, hscan4, hscan3]

/-- Claim C4, witness: a malformed vertex line and a malformed face line are
skipped with a diagnostic; a well-formed vertex line is appended. -/
theorem C4_witness :
    objStep (⟨[], [], []⟩, []) (7, bytesOf "v 1 2") =
      (⟨[], [], []⟩, [(7, "not a recognized vertex format")]) ∧
    objStep (⟨[], [], []⟩, []) (8, bytesOf "f 1 2") =
      (⟨[], [], []⟩, [(8, "not a valid index format")]) ∧
    objStep (⟨[], [], []⟩, []) (9, bytesOf "v 1 2 3") =
      (⟨[vec3f.ofFloats sf1 sf2 sf3], [], []⟩, []) := by
  refine ⟨?_, ?_, ?_⟩
  · exact ((C4_claim ⟨[], [], []⟩ [] 7 (bytesOf "v 1 2")).1 (by decide)).2 (by decide)
  · exact ((C4_claim ⟨[], [], []⟩ [] 8 (bytesOf "f 1 2")).2 (by decide)).2 (by decide) (by decide)
  · have h := ((C4_claim ⟨[], [], []⟩ [] 9 (bytesOf "v 1 2 3")).1 (by decide)).1
      (vec3f.ofFloats sf1 sf2 sf3) (by decide)
    simpa using h

/-- Claim C5: the text-format index check accepts `i` iff `1 <= i` and
`i <= current vertex count` (so values below 1 and forward references are
invalid); an accepted face stores each parsed index `i` as `i - 1`, each
satisfying `0 <= stored < current vertex count`; if any of the face's 3 or 4
indices is invalid the entire face is rejected with a diagnostic and nothing
is appended, the parser state otherwise unchanged so parsing continues. -/
theorem C5_claim (m : Mesh) (ds : List Diag) (n : Nat) (line : List Nat)
    (i j k l : Int) (hf : starts_with line (bytesOf "f ") = true) :
    (∀ (x : Int) (vc : Nat), idx_ok x vc = true ↔ 1 ≤ x ∧ x ≤ (vc : Int)) ∧
    (scanF4 line = some (i, j, k, l) →
      ((idx_ok i m.vertexes.length && idx_ok j m.vertexes.length &&
          idx_ok k m.vertexes.length && idx_ok l m.vertexes.length) = true →
        objStep (m, ds) (n, line) =
          ({ m with faces := m.faces ++ [4],
                    indexes := m.indexes ++ [i - 1, j - 1, k - 1, l - 1] }, ds) ∧
        ∀ e ∈ [i - 1, j - 1, k - 1, l - 1], 0 ≤ e ∧ e < (m.vertexes.length : Int)) ∧
      ((idx_ok i m.vertexes.length && idx_ok j m.vertexes.length &&
          idx_ok k m.vertexes.length && idx_ok l m.vertexes.length) = false →
        objStep (m, ds) (n, line) = (m, ds ++ [(n, "invalid index")]))) ∧
    (scanF4 line = none → scanF3 line = some (i, j, k) →
      ((idx_ok i m.vertexes.length && idx_ok j m.vertexes.length &&
          idx_ok k m.vertexes.length) = true →
        objStep (m, ds) (n, line) =
          ({ m with faces := m.faces ++ [3],
                    indexes := m.indexes ++ [i - 1, j - 1, k - 1] }, ds) ∧
        ∀ e ∈ [i - 1, j - 1, k - 1], 0 ≤ e ∧ e < (m.vertexes.length : Int)) ∧
      ((idx_ok i m.vertexes.length && idx_ok j m.vertexes.length &&
          idx_ok k m.vertexes.length) = false →
        objStep (m, ds) (n, line) = (m, ds ++ [(n, "invalid index")]))) := by
  obtain ⟨rest, rfl⟩ := starts_with_pair _ _ _ (by rw [← bytes_f]; exact hf)
  refine ⟨idx_ok_iff, ?_, ?_⟩
  · intro hscan
    constructor
    · intro hok
      constructor
      · rw [objStep_f, hscan]
        dsimp only
        rw [if_pos hok]
      · simp only [Bool.and_eq_true, idx_ok_iff] at hok
        intro e he
        simp only [List.mem_cons, List.not_mem_nil, or_false] at he
        rcases he with he | he | he | he <;> (subst he; omega)
    · intro hbad
      rw [objStep_f, hscan]
      dsimp only
      rw [if_neg (by simp [hbad])]
  · intro hscan4 hscan3
    constructor
    · intro hok
      constructor
      · rw [objStep_f, hscan4, hscan3]
        dsimp only
        rw [if_pos hok]
      · simp only [Bool.and_eq_true, idx_ok_iff] at hok
        intro e he
        simp only [List.mem_cons, List.not_mem_nil, or_false] at he
        rcases he with he | he | he <;> (subst he; omega)
    · intro hbad
      rw [objStep_f, hscan4, hscan3]
      dsimp only
      rw [if_neg (by simp [hbad])]

/-- Claim C5, witness: with three vertices accumulated, `f 1 2 3` stores
`[0, 1, 2]` and `f 1 2 4` (a forward reference) rejects the whole face. -/
theorem C5_witness :
    objStep (triMeshA, []) (5, bytesOf "f 1 2 3") =
      ({ triMeshA with faces := triMeshA.faces ++ [3],
                       indexes := triMeshA.indexes ++ [0, 1, 2] }, []) ∧
    objStep (triMeshA, []) (6, bytesOf "f 1 2 4") =
      (triMeshA, [(6, "invalid index")]) := by
  constructor
  · have h := (((C5_claim triMeshA [] 5 (bytesOf "f 1 2 3") 1 2 3 0
      (by decide)).2.2 (by decide) (by decide)).1 (by decide)).1
    simpa using h
  · exact ((C5_claim triMeshA [] 6 (bytesOf "f 1 2 4") 1 2 4 0
      (by decide)).2.2 (by decide) (by decide)).2 (by decide)

/-- Claim C6: every mesh returned by `load_obj`, and every mesh `load_ply`
returns rather than aborting, satisfies the invariant that its face sizes sum
to the length of its index sequence and every index lies in
`[0, number of vertices)`. -/
theorem C6_claim :
    (∀ bs : List Nat, meshInv (load_obj bs).1) ∧
    (∀ (s : List Nat) (m : Mesh), load_ply s = .ok m → meshInv m) :=
  ⟨load_obj_inv, load_ply_inv⟩

/-- Claim C6, witness: the invariant at a parsed OBJ file (with accepted and
rejected lines) and at a parsed PLY file with one triangle. -/
theorem C6_witness :
    meshInv (load_obj mixedObjFile).1 ∧ meshInv triPlyMesh :=
  ⟨C6_claim.1 mixedObjFile, C6_claim.2 triPlyFile triPlyMesh (by decide)⟩

/-- Claim C7: when the declared vertex count times 12 overflows a 64-bit
`size_t`, the multiplication guard fails and `load_ply` aborts fatally before
computing the wrapped vertex-block size. -/
theorem C7_claim (s : List Nat) (hs : Nat)
    (hfind : find_end_of s endHeaderMarker = some hs)
    (hover : SIZE_T_MOD ≤
      PlyHeader.vertex_size * (parse_ply_header (s.take hs)).1.vertex_count) :
    load_ply s = .fatal "Vertex count too large" := by
  unfold load_ply
  rw [hfind]
  dsimp only
  unfold ply_extract
  rw [is_mul_safe_false_of_overflow _ _ hover]
  simp

/-- Claim C7, witness: a header declaring 1.6e18 vertices (so that
`12 * vertex_count` exceeds `2^64`) is rejected fatally. -/
theorem C7_witness : load_ply overflowPlyFile = .fatal "Vertex count too large" :=
  C7_claim overflowPlyFile overflowPlyFile.length (by decide) (by decide)

/-- Claim C8: the dispatcher chooses the text parser exactly when the
extension (the filename's text from its last dot) is `.obj` and the binary
parser exactly when it is `.ply`; for any other extension (or no dot) the file
is fatal, the outcome does not depend on any later input file, and the run
exits with status 1 (so the export stage is never reached and no archive
value is produced). -/
theorem C8_claim (name : String) (content : List Nat) :
    (strrchr_dot name.data = some ".obj".data →
      parse_file name content = .ok (load_obj content).1) ∧
    (strrchr_dot name.data = some ".ply".data →
      parse_file name content = load_ply content) ∧
    ((∀ ext, strrchr_dot name.data = some ext →
        ext ≠ ".obj".data ∧ ext ≠ ".ply".data) →
      parse_file name content = .fatal "Unknown file type" ∧
      ∀ pre post post',
        main_loop (pre ++ (name, content) :: post) =
          main_loop (pre ++ (name, content) :: post') ∧
        exit_code (pre ++ (name, content) :: post) = 1) := by
  refine ⟨?_, ?_, ?_⟩
  · intro h
    unfold parse_file
    rw [h]
    dsimp only
    rw [if_neg (by decide), if_pos rfl]
  · intro h
    unfold parse_file
    rw [h]
    dsimp only
    rw [if_pos rfl]
  · intro hext
    have hpf : parse_file name content = .fatal "Unknown file type" := by
      unfold parse_file
      rcases hsd : strrchr_dot name.data with _ | ext
      · rfl
      · obtain ⟨h1, h2⟩ := hext ext hsd
        dsimp only
        rw [if_neg h2, if_neg h1]
    refine ⟨hpf, ?_⟩
    intro pre post post'
    obtain ⟨heq, msg', hfat⟩ :=
      main_loop_fatal_spec name content _ hpf pre post post'
    refine ⟨heq, ?_⟩
    unfold exit_code run_main
    rw [hfat]

/-- Claim C8, witness: the three dispatch outcomes at concrete file names. -/
theorem C8_witness :
    parse_file "frame.obj" [] = .ok (load_obj []).1 ∧
    parse_file "frame.ply" [] = load_ply [] ∧
    parse_file "frame.stl" [] = .fatal "Unknown file type" ∧
    exit_code [("frame.stl", [])] = 1 := by
  have hstl := (C8_claim "frame.stl" []).2.2 (fun ext hext => by
    have hd : strrchr_dot "frame.stl".data = some ".stl".data := by decide
    rw [hd] at hext
    injection hext with hx
    subst hx
    exact ⟨by decide, by decide⟩)
  refine ⟨(C8_claim "frame.obj" []).1 (by decide),
    (C8_claim "frame.ply" []).2.1 (by decide), hstl.1, ?_⟩
  exact (hstl.2 [] [] []).2

/-- Claim C9: when every input file parses without a fatal error, the meshes
handed to the export stage are exactly one per input file in command-line
order, the export stage writes one sample per mesh in that same order, and
the time sampling is uniform with `start_time = 0` and interval
`1 / frames_per_second`, so sample `i` sits at time `i / fps`.  The sample
times use the uniform-sampling contract of the external Alembic library as
modelled from the spec in `sampleTime`. -/
theorem C9_claim (files : List (String × List Nat)) (ms : List Mesh)
    (h : main_loop files = .ok ms) :
    ms.length = files.length ∧
    (∀ i (hi : i < files.length) (hi' : i < ms.length),
      parse_file (files.get ⟨i, hi⟩).1 (files.get ⟨i, hi⟩).2 = .ok (ms.get ⟨i, hi'⟩)) ∧
    run_main files = .ok (export_to_alembic default_params ms) ∧
    (export_to_alembic default_params ms).samples = ms.map meshToSample ∧
    (export_to_alembic default_params ms).start_time = 0 ∧
    (export_to_alembic default_params ms).time_per_cycle = 1 / default_params.fps ∧
    ∀ i : Nat, sampleTime (export_to_alembic default_params ms) i =
      (i : ℚ) * (1 / default_params.fps) := by
  obtain ⟨h1, h2⟩ := main_loop_ok_spec files ms h
  refine ⟨h1, h2, ?_, rfl, rfl, rfl, ?_⟩
  · unfold run_main
    rw [h]
  · intro i
    unfold sampleTime export_to_alembic
    dsimp only
    ring

/-- Claim C9, witness: the spec's two-triangle scenario, two `.obj` files in
order producing two samples at times `0` and `1/24`. -/
theorem C9_witness :
    main_loop twoFrameRun = .ok [triMeshA, triMeshB] ∧
    run_main twoFrameRun = .ok (export_to_alembic default_params [triMeshA, triMeshB]) ∧
    (export_to_alembic default_params [triMeshA, triMeshB]).samples =
      [meshToSample triMeshA, meshToSample triMeshB] ∧
    sampleTime (export_to_alembic default_params [triMeshA, triMeshB]) 0 = 0 ∧
    sampleTime (export_to_alembic default_params [triMeshA, triMeshB]) 1 = 1 / 24 := by
  have hml : main_loop twoFrameRun = .ok [triMeshA, triMeshB] := by decide
  have h := C9_claim twoFrameRun [triMeshA, triMeshB] hml
  refine ⟨hml, h.2.2.1, by rw [h.2.2.2.1]; rfl, ?_, ?_⟩
  · rw [h.2.2.2.2.2.2 0]
    norm_num
  · rw [h.2.2.2.2.2.2 1]
    norm_num [default_params]

/-- Claim C10: with zero input files the collected mesh sequence is empty, the
export stage still runs and produces an archive value with zero samples, and
the process exits with status 0. -/
theorem C10_claim :
    main_loop [] = .ok [] ∧
    run_main [] = .ok (export_to_alembic default_params []) ∧
    (export_to_alembic default_params []).samples = [] ∧
    exit_code [] = 0 :=
  ⟨rfl, rfl, rfl, rfl⟩
